import Mathlib

/-!
Verification development for the chess session-coordination backend.

The definitions below are a shallow embedding of the Java sources:
- `ChessGame` and its operations model `model/ChessGame.java`
  (move history, board replay, `makeMove`, `setWinner`, `isGameOver`).
- `ManagerState` and the `ChessManager.*` operations model
  `manager/ChessManager.java` (the games map, the waiting-players map,
  `joinGame`, `leaveGame`, `getGame`, `getGameByPlayer`, `removeGame`).
- The `MessageController.*` operations model `controller/MessageController.java`
  (the move guard pipeline and the session-disconnect handler).

Modelling conventions: Java `String` fields that may be `null` become
`Option String`; the two `ConcurrentHashMap`s become association lists where
`aput`/`aremove`/`alookup` give the map semantics of `put`/`remove`/`get`
(the list order models one possible, unspecified, hash-iteration order;
`joinGamePick` makes the iteration order of the waiting map an explicit
parameter, since `ConcurrentHashMap` does not enumerate in insertion order);
`UUID.randomUUID()` becomes an explicit fresh-id argument; a method that
mutates an object and returns a flag becomes a function returning the pair.
-/

/-- The `GameState` enumeration of the backend. -/
inductive GameState where
  | WAITING_FOR_PLAYER
  | PLAYER1_TURN
  | PLAYER2_TURN
  | PLAYER1_WON
  | PLAYER2_WON
  | TIE
deriving DecidableEq, Repr

/-- The `ChessGame` model object: move history, the two seats, winner, turn
and game state.  Nullable Java references are `Option`s. -/
structure ChessGame where
  gameId : String
  moveHistory : List String
  player1 : Option String
  player2 : Option String
  winner : Option String
  turn : Option String
  gameState : GameState
deriving DecidableEq, Repr

/-- The `ChessGame(String player1, String player2)` constructor; the random
UUID is passed in as `gid`.  White (`player1`) always starts; if `player2`
is absent the game waits for a second player. -/
def newChessGame (gid : String) (p1 : String) (p2 : Option String) : ChessGame :=
  { gameId := gid
    player1 := some p1
    player2 := p2
    moveHistory := []
    winner := none
    turn := some p1
    gameState := if p2 = none then GameState.WAITING_FOR_PLAYER else GameState.PLAYER1_TURN }

/-- `charAt` of a Java string (indices are always guarded by a length check
before use, so the default is irrelevant on the guarded paths). -/
def charAt (s : String) (i : Nat) : Char :=
  (s.data.get? i).getD (Char.ofNat 0)

/-- Unicode numeric blocks `(base, lo, hi)`: a character with code point `n`
in `lo..hi` has numeric value `n - base`.  The list holds the decimal-digit
(category Nd) blocks of the Basic Multilingual Plane followed by the other
BMP characters whose `Character.getNumericValue` result lies in 1..8
(superscripts, subscripts, the circled/parenthesized/full-stop number
families, Roman numerals, Hangzhou numerals, parenthesized and circled
ideographs, ideographic annotation marks, Ethiopic numbers, Telugu fraction
digits, Khmer lek attak, Tai Tham tham digit one) — 1..8 are the only
results the rank decoding maps onto the board. -/
def numericBlocks : List (Nat × Nat × Nat) :=
  [ (0x30, 0x30, 0x39), (0x660, 0x660, 0x669), (0x6F0, 0x6F0, 0x6F9),
    (0x7C0, 0x7C0, 0x7C9), (0x966, 0x966, 0x96F), (0x9E6, 0x9E6, 0x9EF),
    (0xA66, 0xA66, 0xA6F), (0xAE6, 0xAE6, 0xAEF), (0xB66, 0xB66, 0xB6F),
    (0xBE6, 0xBE6, 0xBEF), (0xC66, 0xC66, 0xC6F), (0xCE6, 0xCE6, 0xCEF),
    (0xD66, 0xD66, 0xD6F), (0xDE6, 0xDE6, 0xDEF), (0xE50, 0xE50, 0xE59),
    (0xED0, 0xED0, 0xED9), (0xF20, 0xF20, 0xF29), (0x1040, 0x1040, 0x1049),
    (0x1090, 0x1090, 0x1099), (0x17E0, 0x17E0, 0x17E9),
    (0x1810, 0x1810, 0x1819), (0x1946, 0x1946, 0x194F),
    (0x19D0, 0x19D0, 0x19D9), (0x1A80, 0x1A80, 0x1A89),
    (0x1A90, 0x1A90, 0x1A99), (0x1B50, 0x1B50, 0x1B59),
    (0x1BB0, 0x1BB0, 0x1BB9), (0x1C40, 0x1C40, 0x1C49),
    (0x1C50, 0x1C50, 0x1C59), (0xA620, 0xA620, 0xA629),
    (0xA8D0, 0xA8D0, 0xA8D9), (0xA900, 0xA900, 0xA909),
    (0xA9D0, 0xA9D0, 0xA9D9), (0xA9F0, 0xA9F0, 0xA9F9),
    (0xAA50, 0xAA50, 0xAA59), (0xABF0, 0xABF0, 0xABF9),
    (0xFF10, 0xFF10, 0xFF19),
    (0xB8, 0xB9, 0xB9), (0xB0, 0xB2, 0xB3),
    (0x2070, 0x2074, 0x2078), (0x2080, 0x2081, 0x2088),
    (0x245F, 0x2460, 0x2467), (0x2473, 0x2474, 0x247B),
    (0x2487, 0x2488, 0x248F), (0x24F4, 0x24F5, 0x24FC),
    (0x2775, 0x2776, 0x277D), (0x277F, 0x2780, 0x2787),
    (0x2789, 0x278A, 0x2791), (0x215F, 0x2160, 0x2167),
    (0x216F, 0x2170, 0x2177), (0x3020, 0x3021, 0x3028),
    (0x321F, 0x3220, 0x3227), (0x327F, 0x3280, 0x3287),
    (0x3191, 0x3192, 0x3195), (0x1368, 0x1369, 0x1370),
    (0xC78, 0xC79, 0xC7B), (0xC7B, 0xC7C, 0xC7E),
    (0x17F0, 0x17F1, 0x17F8), (0x19D9, 0x19DA, 0x19DA) ]

/-- Model of `java.lang.Character.getNumericValue`: characters in a numeric
block give their block value, ASCII letters give 10..35, and every remaining
character is collapsed to `-1`.  The model agrees with Java on every BMP
character whose Java result lies in 1..8 — the only results the rank
decoding maps onto the board; a character whose Java result is 0, 9 or
larger, fractional (`-2`) or absent decodes off the board both in Java and
here, so collapsing those to `-1` never changes the replay behaviour. -/
def getNumericValue (c : Char) : Int :=
  match numericBlocks.find? (fun b => b.2.1 ≤ c.toNat && c.toNat ≤ b.2.2) with
  | some b => (c.toNat : Int) - (b.1 : Int)
  | none =>
    if 97 ≤ c.toNat ∧ c.toNat ≤ 122 then (c.toNat : Int) - 97 + 10
    else if 65 ≤ c.toNat ∧ c.toNat ≤ 90 then (c.toNat : Int) - 65 + 10
    else -1

/-- File letter to column index, `move.charAt(i) - 'a'` (Java `char`
subtraction is `int` subtraction, so the result may be negative). -/
def fileIdx (c : Char) : Int :=
  (c.toNat : Int) - ('a'.toNat : Int)

/-- Rank character to row index, `8 - Character.getNumericValue(c)`. -/
def rankRow (c : Char) : Int :=
  8 - getNumericValue c

/-- Read a board cell (the Java code only reads cells after the 0..7 bounds
check, where the defaults never apply). -/
def getCell (b : List (List String)) (r c : Nat) : String :=
  (((b.get? r).getD []).get? c).getD " "

/-- Write a board cell; `List.set` out of range leaves the list unchanged,
matching that the Java code never writes out of range (bounds are checked
first). -/
def setCell (b : List (List String)) (r c : Nat) (v : String) : List (List String) :=
  b.set r (((b.get? r).getD []).set c v)

/-- The standard initial arrangement built at the top of `getBoard`:
black pieces (lowercase) on rows 0-1, empty middle, white (uppercase) on
rows 6-7. -/
def initialBoard : List (List String) :=
  [ ["r", "n", "b", "q", "k", "b", "n", "r"],
    ["p", "p", "p", "p", "p", "p", "p", "p"],
    [" ", " ", " ", " ", " ", " ", " ", " "],
    [" ", " ", " ", " ", " ", " ", " ", " "],
    [" ", " ", " ", " ", " ", " ", " ", " "],
    [" ", " ", " ", " ", " ", " ", " ", " "],
    ["P", "P", "P", "P", "P", "P", "P", "P"],
    ["R", "N", "B", "Q", "K", "B", "N", "R"] ]

/-- `ChessGame.applyMove(board, move)`: decode the 4-character from/to token;
if any decoded index is outside 0..7 return the board unchanged, else move
the piece at the from-square to the to-square (plain overwrite). -/
def ChessGame.applyMove (board : List (List String)) (mv : String) : List (List String) :=
  if mv.length ≠ 4 then board
  else
    let fromCol := fileIdx (charAt mv 0)
    let toCol := fileIdx (charAt mv 2)
    let fromRow := rankRow (charAt mv 1)
    let toRow := rankRow (charAt mv 3)
    if fromCol < 0 ∨ 7 < fromCol ∨ fromRow < 0 ∨ 7 < fromRow ∨
        toCol < 0 ∨ 7 < toCol ∨ toRow < 0 ∨ 7 < toRow then board
    else
      let piece := getCell board fromRow.toNat fromCol.toNat
      let b1 := setCell board fromRow.toNat fromCol.toNat " "
      setCell b1 toRow.toNat toCol.toNat piece

/-- The board computed by `getBoard`: start from the standard arrangement and
replay every token of the history in order. -/
def boardFromHistory (h : List String) : List (List String) :=
  h.foldl ChessGame.applyMove initialBoard

/-- `ChessGame.getBoard()`: the board is recomputed from `moveHistory` on
every call (the Java method builds a fresh local array and never touches the
game fields). -/
def ChessGame.getBoard (g : ChessGame) : List (List String) :=
  boardFromHistory g.moveHistory

/-- `ChessGame.makeMove(player, move)`: record the token if it is the
caller's turn and the token has exactly 4 characters, then alternate the
turn; returns the success flag together with the updated game. -/
def ChessGame.makeMove (g : ChessGame) (p mv : String) : Bool × ChessGame :=
  if g.turn ≠ some p then (false, g)
  else if mv.length ≠ 4 then (false, g)
  else
    let g1 := { g with moveHistory := g.moveHistory ++ [mv] }
    if g.player1 = some p then
      (true, { g1 with turn := g.player2, gameState := GameState.PLAYER2_TURN })
    else
      (true, { g1 with turn := g.player1, gameState := GameState.PLAYER1_TURN })

/-- `ChessGame.isGameOver()`. -/
def ChessGame.isGameOver (g : ChessGame) : Bool :=
  decide (g.gameState = GameState.PLAYER1_WON) ||
  decide (g.gameState = GameState.PLAYER2_WON) ||
  decide (g.gameState = GameState.TIE)

/-- `ChessGame.setWinner(player)` (the hand-written method, which shadows the
Lombok setter): null-safe comparison against each seat. -/
def ChessGame.setWinner (g : ChessGame) (p : Option String) : Bool × ChessGame :=
  if g.player1 = p then (true, { g with gameState := GameState.PLAYER1_WON, winner := p })
  else if g.player2 = p then (true, { g with gameState := GameState.PLAYER2_WON, winner := p })
  else (false, g)

/-- `ChessGame.setTie()`. -/
def ChessGame.setTie (g : ChessGame) : ChessGame :=
  { g with gameState := GameState.TIE, winner := none }

/-- Java's `s.trim().isEmpty()` test used to validate ids and names:
true exactly when every character has code point at most U+0020, since
`String.trim` strips exactly those characters from both ends. -/
def isBlank (s : String) : Bool :=
  s.data.all (fun c => c.toNat ≤ 32)

/-- `Map.get` on an association-list map. -/
def alookup {α : Type} (m : List (String × α)) (k : String) : Option α :=
  match m with
  | [] => none
  | (k1, v) :: rest => if k1 = k then some v else alookup rest k

/-- `Map.remove` on an association-list map. -/
def aremove {α : Type} (m : List (String × α)) (k : String) : List (String × α) :=
  match m with
  | [] => []
  | (k1, v) :: rest => if k1 = k then aremove rest k else (k1, v) :: aremove rest k

/-- `Map.put` on an association-list map.  The entry order models one
possible (unspecified) hash-iteration order of `ConcurrentHashMap`; only the
`alookup` semantics is the map contract. -/
def aput {α : Type} (m : List (String × α)) (k : String) (v : α) : List (String × α) :=
  (k, v) :: aremove m k

/-- The two maps owned by `ChessManager`: active games keyed by game id, and
waiting players keyed by player name with the pending game id as value. -/
structure ManagerState where
  games : List (String × ChessGame)
  waitingPlayers : List (String × String)
deriving DecidableEq, Repr

/-- The seat test used by `getGameByPlayer`'s stream filter (and by the
controller's `isPlayerInGame`): `player1 != null && player1.equals(p)`, or
the same for `player2`. -/
def seated (p : String) (g : ChessGame) : Bool :=
  decide (g.player1 = some p ∨ g.player2 = some p)

/-- `games.values().stream().filter(...).findFirst()` of `getGameByPlayer`. -/
def scanSeated (games : List (String × ChessGame)) (p : String) : Option ChessGame :=
  (games.find? fun e => seated p e.2).map (fun e => e.2)

/-- `ChessManager.getGameByPlayer(player)`: first consult the waiting map;
an orphaned waiting entry (game id no longer in the games map) is removed
on the way (hence the state in the result); otherwise scan all games for a
seat occupied by the player. -/
def ChessManager.getGameByPlayer (s : ManagerState) (p : String) :
    Option ChessGame × ManagerState :=
  if isBlank p then (none, s)
  else
    match alookup s.waitingPlayers p with
    | some gid =>
      match alookup s.games gid with
      | some g => (some g, s)
      | none =>
        let s1 : ManagerState := { s with waitingPlayers := aremove s.waitingPlayers p }
        (scanSeated s1.games p, s1)
    | none => (scanSeated s.games p, s)

/-- The waiting-player loop of `joinGame`: walk the given enumeration of the
waiting map and return the first entry whose key is another player and whose
game exists with an open second seat. -/
def findWaitingIn (games : List (String × ChessGame)) (p : String) :
    List (String × String) → Option (String × String × ChessGame)
  | [] => none
  | (w, gid) :: rest =>
    if w ≠ p then
      match alookup games gid with
      | some g =>
        if g.player2 = none then some (w, gid, g) else findWaitingIn games p rest
      | none => findWaitingIn games p rest
    else findWaitingIn games p rest

/-- `ChessManager.joinGame(player)` with the waiting-map iteration order made
explicit (`enum` is the order in which `waitingPlayers.entrySet()` is
enumerated) and the fresh UUID passed in as `fresh`.  If the player already
has a game, return it; otherwise pair with the first compatible enumerated
waiting entry, or create a new waiting game. -/
def joinGamePick (s : ManagerState) (enum : List (String × String)) (fresh p : String) :
    Option (ChessGame × ManagerState) :=
  if isBlank p then none
  else
    match ChessManager.getGameByPlayer s p with
    | (some g, s1) => some (g, s1)
    | (none, s1) =>
      let s2 : ManagerState := { s1 with waitingPlayers := aremove s1.waitingPlayers p }
      match findWaitingIn s2.games p enum with
      | some (w, gid, wg) =>
        let g2 := { wg with player2 := some p, gameState := GameState.PLAYER1_TURN,
                            turn := wg.player1 }
        some (g2, { s2 with games := aput s2.games gid g2,
                            waitingPlayers := aremove (aremove s2.waitingPlayers w) p })
      | none =>
        let ng := newChessGame fresh p none
        some (ng, { s2 with games := aput s2.games fresh ng,
                            waitingPlayers := aput s2.waitingPlayers p fresh })

/-- `ChessManager.joinGame(player)` with the model's own entry order as the
iteration order of the waiting map. -/
def ChessManager.joinGame (s : ManagerState) (fresh p : String) :
    Option (ChessGame × ManagerState) :=
  joinGamePick s (aremove s.waitingPlayers p) fresh p

/-- `ChessManager.removeGame(gameId)`: drop the game from the games map and
drop the waiting entries of both of its (non-null) seats. -/
def ChessManager.removeGame (s : ManagerState) (gid : String) : ManagerState :=
  if isBlank gid then s
  else
    match alookup s.games gid with
    | none => s
    | some g =>
      let s1 : ManagerState := { s with games := aremove s.games gid }
      let s2 : ManagerState :=
        match g.player1 with
        | some p1 => { s1 with waitingPlayers := aremove s1.waitingPlayers p1 }
        | none => s1
      match g.player2 with
      | some p2 => { s2 with waitingPlayers := aremove s2.waitingPlayers p2 }
      | none => s2

/-- `ChessManager.leaveGame(player)`: locate the player's game; with an
opponent present declare the opponent winner (via the winner setter) and
remove the game, else just remove the game; the removed, terminal game is
returned for broadcasting. -/
def ChessManager.leaveGame (s : ManagerState) (p : String) :
    Option ChessGame × ManagerState :=
  if isBlank p then (none, s)
  else
    match ChessManager.getGameByPlayer s p with
    | (none, s1) => (none, s1)
    | (some g, s1) =>
      let s2 : ManagerState := { s1 with waitingPlayers := aremove s1.waitingPlayers p }
      if g.player1 = some p then
        if g.player2 ≠ none then
          let gA := { g with gameState := GameState.PLAYER2_WON }
          let gB := (ChessGame.setWinner gA gA.player2).2
          let s3 : ManagerState := { s2 with games := aput s2.games g.gameId gB }
          (some gB, ChessManager.removeGame s3 g.gameId)
        else (none, ChessManager.removeGame s2 g.gameId)
      else if g.player2 = some p then
        if g.player1 ≠ none then
          let gA := { g with gameState := GameState.PLAYER1_WON }
          let gB := (ChessGame.setWinner gA gA.player1).2
          let s3 : ManagerState := { s2 with games := aput s2.games g.gameId gB }
          (some gB, ChessManager.removeGame s3 g.gameId)
        else (none, ChessManager.removeGame s2 g.gameId)
      else (some g, ChessManager.removeGame s2 g.gameId)

/-- `ChessManager.getGame(gameId)`. -/
def ChessManager.getGame (s : ManagerState) (gid : String) : Option ChessGame :=
  if isBlank gid then none else alookup s.games gid

/-- The error kinds the controller can signal on the move path (the Java code
sends an error envelope with a fixed text for each). -/
inductive CtrlError where
  | notFoundOrOver
  | waitingForPlayer
  | notParticipant
  | notYourTurn
  | invalidMove
deriving DecidableEq, Repr

/-- The observable outcome of the controller's move handler. -/
inductive CtrlResult where
  | err : CtrlError → CtrlResult
  | moved : CtrlResult
deriving DecidableEq, Repr

/-- `MessageController.makeMove`: the guard pipeline (game exists, not over,
not waiting, sender seated, sender's turn) followed by `ChessGame.makeMove`;
on success the mutated game is visible in the store. -/
def MessageController.makeMove (s : ManagerState) (sender gid mv : String) :
    CtrlResult × ManagerState :=
  match ChessManager.getGame s gid with
  | none => (CtrlResult.err CtrlError.notFoundOrOver, s)
  | some g =>
    if ChessGame.isGameOver g then (CtrlResult.err CtrlError.notFoundOrOver, s)
    else if g.gameState = GameState.WAITING_FOR_PLAYER then
      (CtrlResult.err CtrlError.waitingForPlayer, s)
    else if ¬ (g.player1 = some sender ∨ g.player2 = some sender) then
      (CtrlResult.err CtrlError.notParticipant, s)
    else if g.turn ≠ some sender then (CtrlResult.err CtrlError.notYourTurn, s)
    else
      match ChessGame.makeMove g sender mv with
      | (true, g2) => (CtrlResult.moved, { s with games := aput s.games gid g2 })
      | (false, _) => (CtrlResult.err CtrlError.invalidMove, s)

/-- `MessageController.handleSessionDisconnect`: clear the disconnecting
seat; with an opponent present set the opponent's `_WON` state and winner
(the game stays in the store, its deletion is only scheduled after a grace
delay), else remove the game immediately.  Returns the broadcast snapshot. -/
def MessageController.handleSessionDisconnect (s : ManagerState) (gid p : String) :
    Option ChessGame × ManagerState :=
  match ChessManager.getGame s gid with
  | none => (none, s)
  | some g =>
    if g.player1 = some p then
      let g1 := { g with player1 := none }
      if g1.player2 ≠ none then
        let gA := { g1 with gameState := GameState.PLAYER2_WON }
        let gB := (ChessGame.setWinner gA gA.player2).2
        (some gB, { s with games := aput s.games gid gB })
      else
        (none, ChessManager.removeGame { s with games := aput s.games gid g1 } gid)
    else if g.player2 = some p then
      let g1 := { g with player2 := none }
      if g1.player1 ≠ none then
        let gA := { g1 with gameState := GameState.PLAYER1_WON }
        let gB := (ChessGame.setWinner gA gA.player1).2
        (some gB, { s with games := aput s.games gid gB })
      else
        (none, ChessManager.removeGame { s with games := aput s.games gid g1 } gid)
    else (some g, s)

/-- Running a list of `(player, token)` moves through `ChessGame.makeMove`,
requiring every move to be accepted. -/
def applyAccepted : ChessGame → List (String × String) → Option ChessGame
  | g, [] => some g
  | g, (p, mv) :: rest =>
    match ChessGame.makeMove g p mv with
    | (true, g2) => applyAccepted g2 rest
    | (false, _) => none

/-- The strictly alternating sequence of names of length `n`, starting with
`a` when the flag is `true`. -/
def altList (a b : String) : Bool → Nat → List String
  | _, 0 => []
  | s, n + 1 => (if s then a else b) :: altList a b (!s) n

/-- The side to move after `n` accepted moves, starting from side `s`. -/
def endSide : Bool → Nat → Bool
  | s, 0 => s
  | s, n + 1 => endSide (!s) n

theorem alookup_aremove_self {α : Type} (m : List (String × α)) (k : String) :
    alookup (aremove m k) k = none := by
  induction m with
  | nil => rfl
  | cons e rest ih =>
    obtain ⟨k1, v⟩ := e
    by_cases h : k1 = k
    · simp [aremove, h, ih]
    · simp [aremove, alookup, h, ih]

theorem aremove_idem {α : Type} (m : List (String × α)) (k : String) :
    aremove (aremove m k) k = aremove m k := by
  induction m with
  | nil => rfl
  | cons e rest ih =>
    obtain ⟨k1, v⟩ := e
    by_cases h : k1 = k
    · simp [aremove, h, ih]
    · simp [aremove, h, ih]

theorem aremove_noop {α : Type} {m : List (String × α)} {k : String}
    (h : alookup m k = none) : aremove m k = m := by
  induction m with
  | nil => rfl
  | cons e rest ih =>
    obtain ⟨k1, v⟩ := e
    by_cases hk : k1 = k
    · simp [alookup, hk] at h
    · simp only [alookup, if_neg hk] at h
      simp [aremove, hk, ih h]

theorem aremove_aput {α : Type} (m : List (String × α)) (k : String) (v : α) :
    aremove (aput m k v) k = aremove m k := by
  simp [aput, aremove, aremove_idem]

theorem alookup_aput_self {α : Type} (m : List (String × α)) (k : String) (v : α) :
    alookup (aput m k v) k = some v := by
  simp [aput, alookup]

theorem alookup_aremove_ne {α : Type} (m : List (String × α)) {k k1 : String}
    (h : k1 ≠ k) : alookup (aremove m k) k1 = alookup m k1 := by
  induction m with
  | nil => rfl
  | cons e rest ih =>
    obtain ⟨k2, v⟩ := e
    by_cases hk : k2 = k
    · subst hk
      have : ¬ k2 = k1 := fun he => h (he ▸ rfl)
      simp [aremove, alookup, this, ih]
    · simp [aremove, alookup, hk, ih]

/-- `getGameByPlayer` never changes the games map (its only mutation is the
removal of an orphaned waiting entry). -/
theorem getGameByPlayer_games_eq (s : ManagerState) (p : String) :
    (ChessManager.getGameByPlayer s p).2.games = s.games := by
  unfold ChessManager.getGameByPlayer
  split
  · rfl
  · split
    · split
      · rfl
      · rfl
    · rfl

/-- After `removeGame gid` (with a usable id), `gid` is gone from the games
map, whether or not it was present. -/
theorem removeGame_lookup_none (s : ManagerState) {gid : String}
    (h : isBlank gid = false) :
    alookup (ChessManager.removeGame s gid).games gid = none := by
  unfold ChessManager.removeGame
  rw [if_neg (by simp [h])]
  cases hg : alookup s.games gid with
  | none => exact hg
  | some g =>
    rcases hp1 : g.player1 with _ | p1 <;> rcases hp2 : g.player2 with _ | p2 <;>
      simp [hp1, hp2, alookup_aremove_self]

/-- Elimination form of a successful `ChessGame.makeMove`: the guards that
must have passed and the exact shape of the updated game. -/
theorem makeMove_true_elim {g g1 : ChessGame} {p mv : String}
    (h : ChessGame.makeMove g p mv = (true, g1)) :
    g.turn = some p ∧ mv.length = 4 ∧
      ((g.player1 = some p ∧
          g1 = { g with moveHistory := g.moveHistory ++ [mv], turn := g.player2,
                        gameState := GameState.PLAYER2_TURN }) ∨
       (g.player1 ≠ some p ∧
          g1 = { g with moveHistory := g.moveHistory ++ [mv], turn := g.player1,
                        gameState := GameState.PLAYER1_TURN })) := by
  unfold ChessGame.makeMove at h
  by_cases h1 : g.turn ≠ some p
  · rw [if_pos h1] at h
    exact absurd (congrArg Prod.fst h) (by simp)
  · rw [if_neg h1] at h
    push_neg at h1
    by_cases h2 : mv.length ≠ 4
    · rw [if_pos h2] at h
      exact absurd (congrArg Prod.fst h) (by simp)
    · rw [if_neg h2] at h
      push_neg at h2
      refine ⟨h1, h2, ?_⟩
      by_cases h3 : g.player1 = some p
      · rw [if_pos h3] at h
        exact Or.inl ⟨h3, (congrArg Prod.snd h).symm⟩
      · rw [if_neg h3] at h
        exact Or.inr ⟨h3, (congrArg Prod.snd h).symm⟩

/-- Introduction form: when it is `p`'s turn and the token has 4 characters,
`makeMove` accepts. -/
theorem makeMove_true_intro (g : ChessGame) (p mv : String)
    (ht : g.turn = some p) (hl : mv.length = 4) :
    (ChessGame.makeMove g p mv).1 = true := by
  unfold ChessGame.makeMove
  rw [if_neg (by simp [ht]), if_neg (by simp [hl])]
  by_cases h3 : g.player1 = some p
  · rw [if_pos h3]
  · rw [if_neg h3]

/-- Claim C6: a move token whose length is not exactly 4 is rejected by
`makeMove` with the game left unchanged, and no legality beyond the token
length is checked: any 4-character token from the player to move is
accepted. -/
theorem chess_c6 :
    (∀ (g : ChessGame) (p mv : String), mv.length ≠ 4 →
        ChessGame.makeMove g p mv = (false, g))
    ∧ (∀ (g : ChessGame) (p mv : String), g.turn = some p → mv.length = 4 →
        (ChessGame.makeMove g p mv).1 = true) := by
  constructor
  · intro g p mv hl
    unfold ChessGame.makeMove
    by_cases h1 : g.turn ≠ some p
    · rw [if_pos h1]
    · rw [if_neg h1, if_pos hl]
  · exact fun g p mv ht hl => makeMove_true_intro g p mv ht hl

theorem chess_c6_witness :
    ChessGame.makeMove (newChessGame "gid6" "alice" (some "bob")) "alice" "e2" =
      (false, newChessGame "gid6" "alice" (some "bob")) :=
  chess_c6.1 (newChessGame "gid6" "alice" (some "bob")) "alice" "e2" (by decide)

/-- Claim C9 (implicit): a successful `makeMove` always leaves the game in a
turn state, never in a terminal state; terminal states arise only from the
winner/tie setters and the leave/disconnect paths. -/
theorem chess_c9 (g : ChessGame) (p mv : String) (g1 : ChessGame)
    (h : ChessGame.makeMove g p mv = (true, g1)) :
    g1.gameState = GameState.PLAYER2_TURN ∨ g1.gameState = GameState.PLAYER1_TURN := by
  rcases makeMove_true_elim h with ⟨-, -, h3 | h3⟩
  · exact Or.inl (by rw [h3.2])
  · exact Or.inr (by rw [h3.2])

def gC9 : ChessGame := newChessGame "gid9" "alice" (some "bob")

def gC9res : ChessGame :=
  { gC9 with moveHistory := ["e2e4"], turn := some "bob",
             gameState := GameState.PLAYER2_TURN }

theorem chess_c9_witness :
    gC9res.gameState = GameState.PLAYER2_TURN ∨
      gC9res.gameState = GameState.PLAYER1_TURN :=
  chess_c9 gC9 "alice" "e2e4" gC9res (by decide)

/-- Claim C7: the board is a pure function of `moveHistory` — the empty
history derives the standard initial arrangement, and any two games with the
same history derive the same board (so re-deriving twice is identical and
session state is untouched). -/
theorem chess_c7 :
    (∀ g : ChessGame, g.moveHistory = [] → ChessGame.getBoard g = initialBoard)
    ∧ (∀ g1 g2 : ChessGame, g1.moveHistory = g2.moveHistory →
        ChessGame.getBoard g1 = ChessGame.getBoard g2) := by
  constructor
  · intro g h
    rw [ChessGame.getBoard, h]
    rfl
  · intro g1 g2 h
    rw [ChessGame.getBoard, ChessGame.getBoard, h]

theorem chess_c7_witness :
    ChessGame.getBoard (newChessGame "gid7" "alice" none) = initialBoard :=
  chess_c7.1 (newChessGame "gid7" "alice" none) rfl

/-- Claim C3: on a session whose status is terminal, the controller's move
path fails with the game-over error and the store is left completely
unchanged — once terminal, no further move is ever accepted. -/
theorem chess_c3 (s : ManagerState) (sender gid mv : String) (g : ChessGame)
    (hget : ChessManager.getGame s gid = some g)
    (hterm : g.gameState = GameState.PLAYER1_WON ∨ g.gameState = GameState.PLAYER2_WON ∨
             g.gameState = GameState.TIE) :
    MessageController.makeMove s sender gid mv =
      (CtrlResult.err CtrlError.notFoundOrOver, s) := by
  have hover : ChessGame.isGameOver g = true := by
    unfold ChessGame.isGameOver
    rcases hterm with h | h | h <;> simp [h]
  unfold MessageController.makeMove
  rw [hget]
  simp only [hover, if_pos]

def gC3 : ChessGame :=
  { gameId := "gid3", moveHistory := ["e2e4"], player1 := some "alice",
    player2 := some "bob", winner := some "bob", turn := some "alice",
    gameState := GameState.PLAYER2_WON }

def sC3 : ManagerState := { games := [("gid3", gC3)], waitingPlayers := [] }

theorem chess_c3_witness :
    MessageController.makeMove sC3 "alice" "gid3" "e2e4" =
      (CtrlResult.err CtrlError.notFoundOrOver, sC3) :=
  chess_c3 sC3 "alice" "gid3" "e2e4" gC3 (by decide) (Or.inr (Or.inl rfl))

/-- Claim C2: `leaveGame` on a session whose other seat is empty deletes the
session and returns nothing; otherwise it sets the remaining seat's `_WON`
status, sets the winner to the remaining participant, deletes the session
from the store, and returns the terminal snapshot. -/
theorem chess_c2 (s s1 s2 : ManagerState) (p : String) (g : ChessGame)
    (r : Option ChessGame)
    (hp : isBlank p = false) (hgid : isBlank g.gameId = false)
    (hfind : ChessManager.getGameByPlayer s p = (some g, s1))
    (hleave : ChessManager.leaveGame s p = (r, s2)) :
    ((g.player1 = some p ∧ g.player2 = none) ∨ (g.player2 = some p ∧ g.player1 = none) →
        r = none ∧ alookup s2.games g.gameId = none)
    ∧ (∀ q, g.player1 = some p → g.player2 = some q → p ≠ q →
        r = some { g with gameState := GameState.PLAYER2_WON, winner := some q }
        ∧ alookup s2.games g.gameId = none)
    ∧ (∀ q, g.player2 = some p → g.player1 = some q → p ≠ q →
        r = some { g with gameState := GameState.PLAYER1_WON, winner := some q }
        ∧ alookup s2.games g.gameId = none) := by
  unfold ChessManager.leaveGame at hleave
  rw [if_neg (by simp [hp]), hfind] at hleave
  split at hleave
  next heq => exact absurd heq (by simp)
  next g1 t1 heq =>
  obtain ⟨hg1, ht1⟩ := Prod.mk.injEq .. ▸ heq
  obtain rfl : g1 = g := (Option.some.inj hg1).symm
  obtain rfl : t1 = s1 := ht1.symm
  dsimp only at hleave
  refine ⟨?_, ?_, ?_⟩
  · rintro (⟨h1, h2⟩ | ⟨h1, h2⟩)
    · rw [if_pos h1, if_neg (by simp [h2])] at hleave
      obtain ⟨hr, hs⟩ := Prod.mk.injEq .. ▸ hleave
      exact ⟨hr.symm, hs ▸ removeGame_lookup_none _ hgid⟩
    · have hne : ¬ g1.player1 = some p := by rw [h2]; simp
      rw [if_neg hne, if_pos h1, if_neg (by simp [h2])] at hleave
      obtain ⟨hr, hs⟩ := Prod.mk.injEq .. ▸ hleave
      exact ⟨hr.symm, hs ▸ removeGame_lookup_none _ hgid⟩
  · intro q h1 h2 hpq
    rw [if_pos h1, if_pos (by simp [h2])] at hleave
    have hwin : (ChessGame.setWinner { g1 with gameState := GameState.PLAYER2_WON }
          { g1 with gameState := GameState.PLAYER2_WON }.player2).2 =
        { g1 with gameState := GameState.PLAYER2_WON, winner := some q } := by
      unfold ChessGame.setWinner
      rw [if_neg (by simp [h1, h2, hpq]), if_pos rfl]
      simp [h2]
    rw [hwin] at hleave
    obtain ⟨hr, hs⟩ := Prod.mk.injEq .. ▸ hleave
    exact ⟨hr.symm, hs ▸ removeGame_lookup_none _ hgid⟩
  · intro q h1 h2 hpq
    have hne : ¬ g1.player1 = some p := by
      rw [h2]; exact fun he => hpq (Option.some.inj he).symm
    rw [if_neg hne, if_pos h1, if_pos (by simp [h2])] at hleave
    have hwin : (ChessGame.setWinner { g1 with gameState := GameState.PLAYER1_WON }
          { g1 with gameState := GameState.PLAYER1_WON }.player1).2 =
        { g1 with gameState := GameState.PLAYER1_WON, winner := some q } := by
      unfold ChessGame.setWinner
      rw [if_pos (by simp [h2])]
      simp [h2]
    rw [hwin] at hleave
    obtain ⟨hr, hs⟩ := Prod.mk.injEq .. ▸ hleave
    exact ⟨hr.symm, hs ▸ removeGame_lookup_none _ hgid⟩

def gC2 : ChessGame :=
  { gameId := "gid2", moveHistory := [], player1 := some "alice",
    player2 := some "bob", winner := none, turn := some "alice",
    gameState := GameState.PLAYER1_TURN }

def sC2 : ManagerState := { games := [("gid2", gC2)], waitingPlayers := [] }

theorem chess_c2_witness :
    (ChessManager.leaveGame sC2 "alice").1 =
      some { gC2 with gameState := GameState.PLAYER2_WON, winner := some "bob" } ∧
    alookup (ChessManager.leaveGame sC2 "alice").2.games gC2.gameId = none :=
  (chess_c2 sC2 sC2 (ChessManager.leaveGame sC2 "alice").2 "alice" gC2
      (ChessManager.leaveGame sC2 "alice").1 (by decide) (by decide) (by decide)
      rfl).2.1 "bob" rfl rfl (by decide)

theorem endSide_mod (n : Nat) : ∀ s : Bool, endSide s n = (if n % 2 = 0 then s else !s) := by
  induction n with
  | zero => intro s; simp [endSide]
  | succ n ih =>
    intro s
    rw [endSide, ih (!s)]
    rcases Nat.even_or_odd n with h | h
    · obtain ⟨k, hk⟩ := h
      have h1 : n % 2 = 0 := by omega
      have h2 : (n + 1) % 2 = 1 := by omega
      simp [h1, h2]
    · obtain ⟨k, hk⟩ := h
      have h1 : n % 2 = 1 := by omega
      have h2 : (n + 1) % 2 = 0 := by omega
      simp [h1, h2]

/-- The run invariant of accepted move sequences on a paired game: the movers
follow the strict alternation, the seats are preserved, the history grows by
exactly the played tokens, and the final turn and state are determined by the
parity of the number of moves. -/
theorem applyAccepted_run (ms : List (String × String)) :
    ∀ (g g2 : ChessGame) (a b : String) (s : Bool), a ≠ b →
      g.player1 = some a → g.player2 = some b → g.turn = some (if s then a else b) →
      applyAccepted g ms = some g2 →
      ms.map Prod.fst = altList a b s ms.length
      ∧ g2.player1 = some a ∧ g2.player2 = some b
      ∧ g2.moveHistory = g.moveHistory ++ ms.map Prod.snd
      ∧ g2.turn = some (if endSide s ms.length then a else b)
      ∧ (ms ≠ [] → g2.gameState =
          (if endSide s ms.length then GameState.PLAYER1_TURN else GameState.PLAYER2_TURN)) := by
  induction ms with
  | nil =>
    intro g g2 a b s hab h1 h2 ht hrun
    obtain rfl : g = g2 := Option.some.inj hrun
    exact ⟨rfl, h1, h2, by simp, ht, by simp⟩
  | cons hd tl ih =>
    intro g g2 a b s hab h1 h2 ht hrun
    obtain ⟨p, mv⟩ := hd
    rw [applyAccepted] at hrun
    rcases hmk : ChessGame.makeMove g p mv with ⟨ok, gm⟩
    rw [hmk] at hrun
    cases ok
    · exact absurd hrun (by simp)
    · obtain ⟨hturn, hlen, hcase⟩ := makeMove_true_elim hmk
      have hpv : p = (if s then a else b) := by
        have := hturn.symm.trans ht
        exact Option.some.inj this
      cases s
      · -- b to move: the mover is not player1
        have hpb : p = b := by simpa using hpv
        rcases hcase with ⟨hp1, hgm⟩ | ⟨hp1, hgm⟩
        · exfalso
          have hsome := h1.symm.trans hp1
          rw [hpb] at hsome
          exact hab (Option.some.inj hsome)
        · subst hgm
          have hrec := ih _ g2 a b true hab (by simpa using h1) (by simpa using h2)
            (by simpa using h1) hrun
          rcases hrec with ⟨hmap, hq1, hq2, hhist, hqturn, hqstate⟩
          refine ⟨?_, hq1, hq2, ?_, hqturn, ?_⟩
          · rw [List.map_cons, hmap, List.length_cons, altList, hpb]
            simp
          · rw [hhist]
            simp
          · intro hne
            rcases tl with _ | ⟨t0, tl'⟩
            · obtain rfl : _ = g2 := Option.some.inj hrun
              simp [endSide]
            · exact hqstate (by simp)
      · -- a to move: the mover is player1
        have hpa : p = a := by simpa using hpv
        rcases hcase with ⟨hp1, hgm⟩ | ⟨hp1, hgm⟩
        · subst hgm
          have hrec := ih _ g2 a b false hab (by simpa using h1) (by simpa using h2)
            (by simpa using h2) hrun
          rcases hrec with ⟨hmap, hq1, hq2, hhist, hqturn, hqstate⟩
          refine ⟨?_, hq1, hq2, ?_, hqturn, ?_⟩
          · rw [List.map_cons, hmap, List.length_cons, altList, hpa]
            simp
          · rw [hhist]
            simp
          · intro hne
            rcases tl with _ | ⟨t0, tl'⟩
            · obtain rfl : _ = g2 := Option.some.inj hrun
              simp [endSide]
            · exact hqstate (by simp)
        · exact absurd (hpa ▸ h1) hp1

/-- Claim C5: on a paired session, accepted moves alternate strictly between
`participantA` and `participantB` starting with `participantA`, each accepted
move appends its token to the history, and the final turn/status are the
parity-determined turn state of the next participant; a single successful
`makeMove` appends the token, flips the turn to the other seat and sets the
status to that seat's turn state. -/
theorem chess_c5 :
    (∀ (a b : String) (g g2 : ChessGame) (ms : List (String × String)),
      a ≠ b → g.player1 = some a → g.player2 = some b → g.turn = some a →
      applyAccepted g ms = some g2 →
      ms.map Prod.fst = altList a b true ms.length
      ∧ g2.moveHistory = g.moveHistory ++ ms.map Prod.snd
      ∧ g2.turn = some (if ms.length % 2 = 0 then a else b)
      ∧ (ms ≠ [] → g2.gameState =
          (if ms.length % 2 = 0 then GameState.PLAYER1_TURN else GameState.PLAYER2_TURN)))
    ∧ (∀ (g g1 : ChessGame) (p mv : String),
      ChessGame.makeMove g p mv = (true, g1) →
      g1.moveHistory = g.moveHistory ++ [mv]
      ∧ (g.player1 = some p → g1.turn = g.player2 ∧ g1.gameState = GameState.PLAYER2_TURN)
      ∧ (g.player1 ≠ some p → g1.turn = g.player1 ∧ g1.gameState = GameState.PLAYER1_TURN)) := by
  constructor
  · intro a b g g2 ms hab h1 h2 ht hrun
    have h := applyAccepted_run ms g g2 a b true hab h1 h2 (by simpa using ht) hrun
    rcases h with ⟨hmap, -, -, hhist, hqturn, hqstate⟩
    rw [endSide_mod] at hqturn hqstate
    refine ⟨hmap, hhist, ?_, ?_⟩
    · by_cases hm : ms.length % 2 = 0 <;> simp [hm] at hqturn ⊢ <;> exact hqturn
    · intro hne
      by_cases hm : ms.length % 2 = 0 <;> simp [hm] at hqstate ⊢ <;> exact hqstate hne
  · intro g g1 p mv hmk
    obtain ⟨-, -, hcase⟩ := makeMove_true_elim hmk
    rcases hcase with ⟨hp1, hgm⟩ | ⟨hp1, hgm⟩ <;> subst hgm
    · exact ⟨rfl, fun _ => ⟨rfl, rfl⟩, fun hne => absurd hp1 hne⟩
    · exact ⟨rfl, fun hyes => absurd hyes hp1, fun _ => ⟨rfl, rfl⟩⟩

def gC5 : ChessGame :=
  { gameId := "gid5", moveHistory := [], player1 := some "alice",
    player2 := some "bob", winner := none, turn := some "alice",
    gameState := GameState.PLAYER1_TURN }

def msC5 : List (String × String) := [("alice", "e2e4"), ("bob", "e7e5")]

def gC5fin : ChessGame :=
  { gC5 with moveHistory := ["e2e4", "e7e5"], turn := some "alice",
             gameState := GameState.PLAYER1_TURN }

theorem chess_c5_witness :
    msC5.map Prod.fst = altList "alice" "bob" true msC5.length :=
  (chess_c5.1 "alice" "bob" gC5 gC5fin msC5 (by decide) rfl rfl rfl (by decide)).1

def gC4 : ChessGame :=
  { gameId := "G", moveHistory := [], player1 := some "alice",
    player2 := some "bob", winner := none, turn := some "alice",
    gameState := GameState.PLAYER1_TURN }

def sC4 : ManagerState := { games := [("G", gC4)], waitingPlayers := [] }

/-- Counterexample to claim C4 as stated: on a two-seated session, the
disconnect handler does not perform the same store mutation as an explicit
leave — the snapshot seats differ (leave keeps `player1 = some "alice"`,
disconnect clears that seat) and the store contents differ (leave deletes
the session synchronously, disconnect leaves it in the store until the
delayed teardown). -/
theorem chess_c4_counterexample :
    ¬ ((ChessManager.leaveGame sC4 "alice").1 =
         (MessageController.handleSessionDisconnect sC4 "G" "alice").1
       ∧ (ChessManager.leaveGame sC4 "alice").2 =
         (MessageController.handleSessionDisconnect sC4 "G" "alice").2) := by
  decide

/-- Claim C4, amended: whichever seat the disconnecting participant occupies,
the Reaper declares the same terminal status and the same winner as an
explicit leave, but it additionally clears the disconnecting seat, and it
deletes the session from the store only via the delayed teardown
(`removeGame` after the grace delay) rather than synchronously; after that
delayed removal the games store agrees with the one the explicit leave
produces. -/
theorem chess_c4 :
    (∀ (s : ManagerState) (p q gid : String) (g : ChessGame),
      isBlank p = false → isBlank gid = false →
      ChessManager.getGame s gid = some g →
      ChessManager.getGameByPlayer s p = (some g, s) →
      g.gameId = gid → g.player1 = some p → g.player2 = some q → p ≠ q →
      alookup s.waitingPlayers p = none →
      (ChessManager.leaveGame s p).1 =
          some { g with gameState := GameState.PLAYER2_WON, winner := some q }
      ∧ (MessageController.handleSessionDisconnect s gid p).1 =
          some { g with player1 := none, gameState := GameState.PLAYER2_WON,
                        winner := some q }
      ∧ ChessManager.removeGame
          (MessageController.handleSessionDisconnect s gid p).2 gid =
          (ChessManager.leaveGame s p).2)
    ∧ (∀ (s : ManagerState) (p q gid : String) (g : ChessGame),
      isBlank p = false → isBlank gid = false →
      ChessManager.getGame s gid = some g →
      ChessManager.getGameByPlayer s p = (some g, s) →
      g.gameId = gid → g.player2 = some p → g.player1 = some q → p ≠ q →
      alookup s.waitingPlayers p = none →
      (ChessManager.leaveGame s p).1 =
          some { g with gameState := GameState.PLAYER1_WON, winner := some q }
      ∧ (MessageController.handleSessionDisconnect s gid p).1 =
          some { g with player2 := none, gameState := GameState.PLAYER1_WON,
                        winner := some q }
      ∧ ChessManager.removeGame
          (MessageController.handleSessionDisconnect s gid p).2 gid =
          (ChessManager.leaveGame s p).2) := by
  constructor
  · intro s p q gid g hp hgid hget hfind hid h1 h2 hpq hw
    have hgid' : isBlank g.gameId = false := hid ▸ hgid
    have hwin : (ChessGame.setWinner { g with gameState := GameState.PLAYER2_WON }
          { g with gameState := GameState.PLAYER2_WON }.player2).2 =
        { g with gameState := GameState.PLAYER2_WON, winner := some q } := by
      unfold ChessGame.setWinner
      rw [if_neg (by simp [h1, h2, hpq]), if_pos rfl]
      simp [h2]
    have hwinD : (ChessGame.setWinner
          { g with player1 := none, gameState := GameState.PLAYER2_WON }
          { g with player1 := none, gameState := GameState.PLAYER2_WON }.player2).2 =
        { g with player1 := none, gameState := GameState.PLAYER2_WON,
                 winner := some q } := by
      unfold ChessGame.setWinner
      rw [if_neg (by simp [h2]), if_pos rfl]
      simp [h2]
    have hL : ChessManager.leaveGame s p =
        (some { g with gameState := GameState.PLAYER2_WON, winner := some q },
         { games := aremove s.games gid,
           waitingPlayers := aremove s.waitingPlayers q }) := by
      unfold ChessManager.leaveGame
      rw [if_neg (by simp [hp]), hfind]
      dsimp only
      rw [if_pos h1, if_pos (by simp [h2]), hwin, aremove_noop hw]
      unfold ChessManager.removeGame
      rw [if_neg (by simp [hgid']), hid]
      dsimp only
      rw [alookup_aput_self]
      dsimp only
      rw [h1, h2]
      dsimp only
      rw [aremove_aput, aremove_noop hw]
    have hD : MessageController.handleSessionDisconnect s gid p =
        (some { g with player1 := none, gameState := GameState.PLAYER2_WON,
                       winner := some q },
         { s with games := aput s.games gid { g with player1 := none, gameState := GameState.PLAYER2_WON, winner := some q } }) := by
      unfold MessageController.handleSessionDisconnect
      rw [hget]
      dsimp only
      rw [if_pos h1, if_pos (by simp [h2]), hwinD]
    have hR : ChessManager.removeGame
        ({ s with games := aput s.games gid { g with player1 := none, gameState := GameState.PLAYER2_WON, winner := some q } } : ManagerState) gid =
        ({ games := aremove s.games gid,
           waitingPlayers := aremove s.waitingPlayers q } : ManagerState) := by
      unfold ChessManager.removeGame
      rw [if_neg (by simp [hgid])]
      dsimp only
      rw [alookup_aput_self]
      dsimp only
      rw [h2]
      dsimp only
      rw [aremove_aput]
    refine ⟨by rw [hL], by rw [hD], ?_⟩
    rw [hD, hL]
    exact hR
  · intro s p q gid g hp hgid hget hfind hid h1 h2 hpq hw
    have hgid' : isBlank g.gameId = false := hid ▸ hgid
    have hne1 : ¬ g.player1 = some p := by
      rw [h2]
      exact fun he => hpq (Option.some.inj he).symm
    have hw2 : alookup (aremove s.waitingPlayers q) p = none := by
      rw [alookup_aremove_ne _ hpq]
      exact hw
    have hwin : (ChessGame.setWinner { g with gameState := GameState.PLAYER1_WON }
          { g with gameState := GameState.PLAYER1_WON }.player1).2 =
        { g with gameState := GameState.PLAYER1_WON, winner := some q } := by
      unfold ChessGame.setWinner
      rw [if_pos rfl]
      simp [h2]
    have hwinD : (ChessGame.setWinner
          { g with player2 := none, gameState := GameState.PLAYER1_WON }
          { g with player2 := none, gameState := GameState.PLAYER1_WON }.player1).2 =
        { g with player2 := none, gameState := GameState.PLAYER1_WON,
                 winner := some q } := by
      unfold ChessGame.setWinner
      rw [if_pos rfl]
      simp [h2]
    have hL : ChessManager.leaveGame s p =
        (some { g with gameState := GameState.PLAYER1_WON, winner := some q },
         { games := aremove s.games gid,
           waitingPlayers := aremove s.waitingPlayers q }) := by
      unfold ChessManager.leaveGame
      rw [if_neg (by simp [hp]), hfind]
      dsimp only
      rw [if_neg hne1, if_pos h1, if_pos (by simp [h2]), hwin, aremove_noop hw]
      unfold ChessManager.removeGame
      rw [if_neg (by simp [hgid']), hid]
      dsimp only
      rw [alookup_aput_self]
      dsimp only
      rw [h1, h2]
      dsimp only
      rw [aremove_aput, aremove_noop hw2]
    have hD : MessageController.handleSessionDisconnect s gid p =
        (some { g with player2 := none, gameState := GameState.PLAYER1_WON,
                       winner := some q },
         { s with games := aput s.games gid { g with player2 := none, gameState := GameState.PLAYER1_WON, winner := some q } }) := by
      unfold MessageController.handleSessionDisconnect
      rw [hget]
      dsimp only
      rw [if_neg hne1, if_pos h1, if_pos (by simp [h2]), hwinD]
    have hR : ChessManager.removeGame
        ({ s with games := aput s.games gid { g with player2 := none, gameState := GameState.PLAYER1_WON, winner := some q } } : ManagerState) gid =
        ({ games := aremove s.games gid,
           waitingPlayers := aremove s.waitingPlayers q } : ManagerState) := by
      unfold ChessManager.removeGame
      rw [if_neg (by simp [hgid])]
      dsimp only
      rw [alookup_aput_self]
      dsimp only
      rw [h2]
      dsimp only
      rw [aremove_aput]
    refine ⟨by rw [hL], by rw [hD], ?_⟩
    rw [hD, hL]
    exact hR

theorem chess_c4_witness :
    ((ChessManager.leaveGame sC4 "alice").1 =
        some { gC4 with gameState := GameState.PLAYER2_WON, winner := some "bob" }
    ∧ (MessageController.handleSessionDisconnect sC4 "G" "alice").1 =
        some { gC4 with player1 := none, gameState := GameState.PLAYER2_WON,
                        winner := some "bob" }
    ∧ ChessManager.removeGame
        (MessageController.handleSessionDisconnect sC4 "G" "alice").2 "G" =
        (ChessManager.leaveGame sC4 "alice").2)
    ∧ ((ChessManager.leaveGame sC4 "bob").1 =
        some { gC4 with gameState := GameState.PLAYER1_WON, winner := some "alice" }
    ∧ (MessageController.handleSessionDisconnect sC4 "G" "bob").1 =
        some { gC4 with player2 := none, gameState := GameState.PLAYER1_WON,
                        winner := some "alice" }
    ∧ ChessManager.removeGame
        (MessageController.handleSessionDisconnect sC4 "G" "bob").2 "G" =
        (ChessManager.leaveGame sC4 "bob").2) :=
  ⟨chess_c4.1 sC4 "alice" "bob" "G" gC4 (by decide) (by decide) (by decide)
     (by decide) rfl rfl rfl (by decide) rfl,
   chess_c4.2 sC4 "bob" "alice" "G" gC4 (by decide) (by decide) (by decide)
     (by decide) rfl rfl rfl (by decide) rfl⟩

/-- A successful `getGameByPlayer` is stable: re-running it on the state it
returns finds the same game and changes nothing further. -/
theorem getGameByPlayer_stable {s s1 : ManagerState} {p : String} {g : ChessGame}
    (h : ChessManager.getGameByPlayer s p = (some g, s1)) :
    ChessManager.getGameByPlayer s1 p = (some g, s1) := by
  unfold ChessManager.getGameByPlayer at h ⊢
  by_cases hp : isBlank p = true
  · rw [if_pos hp] at h
    exact absurd (congrArg Prod.fst h) (by simp)
  · rw [if_neg hp] at h ⊢
    split at h
    next gid hw =>
      split at h
      next g0 hg0 =>
        obtain ⟨h1, h2⟩ := Prod.mk.injEq .. ▸ h
        obtain rfl : s1 = s := h2.symm
        obtain rfl : g0 = g := Option.some.inj h1
        rw [hw]
        dsimp only
        rw [hg0]
      next hg0 =>
        obtain ⟨h1, h2⟩ := Prod.mk.injEq .. ▸ h
        obtain rfl : s1 = { s with waitingPlayers := aremove s.waitingPlayers p } :=
          h2.symm
        rw [show alookup (aremove s.waitingPlayers p) p = none from
          alookup_aremove_self .. ]
        dsimp only
        rw [h1]
    next hw =>
      obtain ⟨h1, h2⟩ := Prod.mk.injEq .. ▸ h
      obtain rfl : s1 = s := h2.symm
      rw [hw]
      dsimp only
      rw [h1]

/-- The head of the game list is found by the seat scan when the given player
occupies one of its seats. -/
theorem scanSeated_cons_seated {gid : String} {g2 : ChessGame}
    {rest : List (String × ChessGame)} {p : String} (h : seated p g2 = true) :
    scanSeated ((gid, g2) :: rest) p = some g2 := by
  simp [scanSeated, List.find?, h]

/-- `getGameByPlayer` finds a game through the seat scan when the player has
no waiting entry. -/
theorem getGameByPlayer_found {st : ManagerState} {p : String} {g2 : ChessGame}
    (hp : isBlank p = false)
    (hw : alookup st.waitingPlayers p = none)
    (hscan : scanSeated st.games p = some g2) :
    ChessManager.getGameByPlayer st p = (some g2, st) := by
  unfold ChessManager.getGameByPlayer
  rw [if_neg (by simp [hp]), hw]
  dsimp only
  rw [hscan]

/-- `getGameByPlayer` finds a game through the waiting map when the waiting
entry points at an existing game. -/
theorem getGameByPlayer_waiting {st : ManagerState} {p gid : String} {g2 : ChessGame}
    (hp : isBlank p = false)
    (hw : alookup st.waitingPlayers p = some gid)
    (hg : alookup st.games gid = some g2) :
    ChessManager.getGameByPlayer st p = (some g2, st) := by
  unfold ChessManager.getGameByPlayer
  rw [if_neg (by simp [hp]), hw]
  dsimp only
  rw [hg]

/-- When `getGameByPlayer` finds a game without changing the state,
`joinGame` returns exactly that game and that state. -/
theorem joinGame_of_found {st : ManagerState} {p : String} {g2 : ChessGame}
    (fresh1 : String) (hp : isBlank p = false)
    (hgbp : ChessManager.getGameByPlayer st p = (some g2, st)) :
    ChessManager.joinGame st fresh1 p = some (g2, st) := by
  unfold ChessManager.joinGame joinGamePick
  rw [if_neg (by simp [hp]), hgbp]

/-- Claim C1: a participant who already owns an active or waiting session
gets that existing session back from `joinGame` with the games map unchanged
(no duplicate session); and `joinGame` run twice in a row with the same name
returns the same session both times with no further state change. -/
theorem chess_c1 :
    (∀ (s : ManagerState) (fresh p : String) (g : ChessGame) (s1 : ManagerState),
        isBlank p = false →
        ChessManager.getGameByPlayer s p = (some g, s1) →
        ChessManager.joinGame s fresh p = some (g, s1) ∧ s1.games = s.games)
    ∧ (∀ (s : ManagerState) (fresh fresh1 p : String) (g : ChessGame)
        (s1 : ManagerState),
        ChessManager.joinGame s fresh p = some (g, s1) →
        ChessManager.joinGame s1 fresh1 p = some (g, s1)) := by
  constructor
  · intro s fresh p g s1 hp hfind
    have hgames := getGameByPlayer_games_eq s p
    rw [hfind] at hgames
    refine ⟨?_, hgames⟩
    unfold ChessManager.joinGame joinGamePick
    rw [if_neg (by simp [hp]), hfind]
  · intro s fresh fresh1 p g s1 hjoin
    by_cases hp : isBlank p = true
    · unfold ChessManager.joinGame joinGamePick at hjoin
      rw [if_pos hp] at hjoin
      exact absurd hjoin (by simp)
    · unfold ChessManager.joinGame joinGamePick at hjoin
      rw [if_neg hp] at hjoin
      split at hjoin
      next g0 t1 heq =>
        have hx := Option.some.inj hjoin
        obtain ⟨h1, h2⟩ := Prod.mk.injEq .. ▸ hx
        obtain rfl : g0 = g := h1
        obtain rfl : t1 = s1 := h2
        exact joinGame_of_found fresh1 (by simpa using hp) (getGameByPlayer_stable heq)
      next t1 heq =>
        dsimp only at hjoin
        split at hjoin
        next w gid wg hfound =>
          have hx := Option.some.inj hjoin
          obtain ⟨h1, h2⟩ := Prod.mk.injEq .. ▸ hx
          subst h1
          subst h2
          apply joinGame_of_found fresh1 (by simpa using hp)
          apply getGameByPlayer_found (by simpa using hp)
          · exact alookup_aremove_self ..
          · exact scanSeated_cons_seated (by simp [seated])
        next hfound =>
          have hx := Option.some.inj hjoin
          obtain ⟨h1, h2⟩ := Prod.mk.injEq .. ▸ hx
          subst h1
          subst h2
          apply joinGame_of_found fresh1 (by simpa using hp)
          apply getGameByPlayer_waiting (by simpa using hp) (alookup_aput_self ..)
          exact alookup_aput_self ..

def sC1a : ManagerState := { games := [], waitingPlayers := [] }

def gC1 : ChessGame := newChessGame "gid1" "alice" none

def sC1b : ManagerState :=
  { games := [("gid1", gC1)], waitingPlayers := [("alice", "gid1")] }

theorem chess_c1_witness :
    ChessManager.joinGame sC1b "gid1b" "alice" = some (gC1, sC1b) :=
  chess_c1.2 sC1a "gid1" "gid1b" "alice" gC1 sC1b (by decide)

def gC8p : ChessGame := newChessGame "gp" "p" none

def gC8q : ChessGame := newChessGame "gq" "q" none

def sC8 : ManagerState :=
  { games := [("gp", gC8p), ("gq", gC8q)],
    waitingPlayers := [("p", "gp"), ("q", "gq")] }

def enumC8a : List (String × String) := [("p", "gp"), ("q", "gq")]

def enumC8b : List (String × String) := [("q", "gq"), ("p", "gp")]

/-- Counterexample to claim C8 as stated: with two compatible waiting
entries, two hash-iteration orders of the same waiting map (both are
permutations of the pool, and `ConcurrentHashMap` guarantees neither) make
`joinGame` pair the joiner with different partners, and under the reversed
order the selected partner is the later-enqueued `"q"`, not the
earliest-enqueued `"p"` — so selection is neither deterministic across runs
nor earliest-enqueued-first. -/
theorem chess_c8_counterexample :
    List.Perm enumC8a sC8.waitingPlayers ∧ List.Perm enumC8b sC8.waitingPlayers
    ∧ (joinGamePick sC8 enumC8a "gr" "r").map (fun x => x.1.player1) = some (some "p")
    ∧ (joinGamePick sC8 enumC8b "gr" "r").map (fun x => x.1.player1) = some (some "q")
    ∧ (joinGamePick sC8 enumC8a "gr" "r").map (fun x => x.1.player1) ≠
      (joinGamePick sC8 enumC8b "gr" "r").map (fun x => x.1.player1) :=
  ⟨List.Perm.refl _, List.Perm.swap ("p", "gp") ("q", "gq") [],
   by decide, by decide, by decide⟩

/-- A waiting entry is compatible for joiner `p` when it belongs to another
name and its game exists with an open second seat. -/
def compatEntry (games : List (String × ChessGame)) (p : String)
    (e : String × String) : Prop :=
  e.1 ≠ p ∧ ∃ g, alookup games e.2 = some g ∧ g.player2 = none

/-- Claim C8, amended: the matchmaker's waiting-pool loop selects the first
compatible entry in the order the waiting map happens to be enumerated;
given the same enumeration order the selection is deterministic, but the
hash map's enumeration order is not guaranteed to be enqueue order, so the
earliest-enqueued entry is not necessarily the one selected. -/
theorem chess_c8 (games : List (String × ChessGame)) (p w gid : String)
    (wg : ChessGame) (e1 e2 : List (String × String))
    (hskip : ∀ x ∈ e1, ¬ compatEntry games p x)
    (hw : w ≠ p) (hlook : alookup games gid = some wg) (hopen : wg.player2 = none) :
    findWaitingIn games p (e1 ++ (w, gid) :: e2) = some (w, gid, wg) := by
  induction e1 with
  | nil =>
    rw [List.nil_append, findWaitingIn, if_pos hw, hlook]
    dsimp only
    rw [if_pos hopen]
  | cons x rest ih =>
    obtain ⟨a, b⟩ := x
    have hx := hskip (a, b) (List.mem_cons_self ..)
    have hih := ih (fun y hy => hskip y (List.mem_cons_of_mem _ hy))
    rw [List.cons_append, findWaitingIn]
    by_cases ha : a ≠ p
    · rw [if_pos ha]
      rcases hb : alookup games b with _ | gB
      · exact hih
      · dsimp only
        by_cases hb2 : gB.player2 = none
        · exact absurd ⟨ha, gB, hb, hb2⟩ hx
        · rw [if_neg hb2]
          exact hih
    · rw [if_neg ha]
      exact hih

theorem chess_c8_witness :
    findWaitingIn sC8.games "r" ([] ++ ("p", "gp") :: [("q", "gq")]) =
      some ("p", "gp", gC8p) :=
  chess_c8 sC8.games "r" "p" "gp" gC8p [] [("q", "gq")]
    (fun x hx => absurd hx (List.not_mem_nil x)) (by decide) (by decide) (by decide)
